import Mathlib

/-!
Verification development for the podproxy repository.

A shallow embedding of the connection-routing and port-forward dialing
subsystem: Go strings are Lean `String`s, Go `map[string]*PortForwarder` is an
association list with `Option` values (a nil pointer value is `none`), Go
`error` values are the inductive `GoErr` (with `wrap` modelling
`fmt.Errorf("...: %w", err)`), and the stateful retry loop of
`PortForwarder.dialTarget` is an interpreter over an environment that fixes
the outcome of each resolve call, dial call and backoff sleep, producing an
observable trace.
-/

namespace Podproxy

/-! ### Go string helpers -/

/-- `suffix` is a suffix of `s` (on character lists, so that it computes by
structural recursion). -/
def isSuffixL (suffix s : List Char) : Bool :=
  suffix.reverse.isPrefixOf s.reverse

/-- Model of Go `strings.TrimSuffix`: drop `suffix` from the end of `s` when
present, otherwise return `s` unchanged. -/
def trimSuffixL (s suffix : List Char) : List Char :=
  if isSuffixL suffix s then s.take (s.length - suffix.length) else s

/-- Model of Go `strings.Contains`: `sub` occurs contiguously in `s`. -/
def strContainsSub (s sub : String) : Bool :=
  s.data.tails.any (fun t => sub.data.isPrefixOf t)

/-- Model of Go `strings.Split(s, ".")`: split on every dot, keeping empty
parts; a string with no dot yields the one-element list. -/
def splitDotL : List Char → List (List Char)
  | [] => [[]]
  | c :: rest =>
    if c = '.' then [] :: splitDotL rest
    else
      match splitDotL rest with
      | [] => [[c]]
      | p :: ps => (c :: p) :: ps

/-- Index of the last `':'` in a character list (Go `last(hostport, ':')` in
`net.SplitHostPort`); `none` when there is no colon. -/
def lastColonIdx (l : List Char) : Option Nat :=
  match l.reverse.findIdx? (fun c => c = ':') with
  | none => none
  | some j => some (l.length - 1 - j)

/-- Model of Go `net.SplitHostPort`. Returns `none` exactly when the Go
function returns a non-nil error (missing port, too many colons, or bracket
problems); otherwise returns the host and port parts. -/
def splitHostPortL (l : List Char) : Option (List Char × List Char) :=
  match lastColonIdx l with
  | none => none
  | some i =>
    if l.head? = some '[' then
      match l.findIdx? (fun c => c = ']') with
      | none => none
      | some endIdx =>
        if endIdx + 1 = l.length then none
        else if endIdx + 1 = i then
          if (l.drop 1).contains '[' then none
          else if (l.drop (endIdx + 1)).contains ']' then none
          else some ((l.drop 1).take (endIdx - 1), l.drop (i + 1))
        else none
    else
      if (l.take i).contains ':' then none
      else if l.contains '[' then none
      else if l.contains ']' then none
      else some (l.take i, l.drop (i + 1))

/-- `net.SplitHostPort` on `String`s. -/
def goSplitHostPort (s : String) : Option (String × String) :=
  match splitHostPortL s.data with
  | none => none
  | some (h, p) => some (String.mk h, String.mk p)

/-- Model of Go `strconv.Atoi`: optional sign, then decimal digits; `none` on
an empty number, a non-digit character, or 64-bit overflow (where `Atoi`
returns `ErrRange`). -/
def goAtoiL (s : List Char) : Option Int :=
  let (neg, digits) :=
    match s with
    | '-' :: rest => (true, rest)
    | '+' :: rest => (false, rest)
    | l => (false, l)
  if digits.isEmpty then none
  else if digits.all Char.isDigit then
    let n : Int := digits.foldl (fun acc c => acc * 10 + (Int.ofNat (c.toNat - '0'.toNat))) 0
    let v : Int := if neg then -n else n
    if v < -(2 ^ 63) ∨ v > 2 ^ 63 - 1 then none else some v
  else none

/-- `strconv.Atoi` on `String`s. -/
def goAtoi (s : String) : Option Int :=
  goAtoiL s.data

/-! ### Go error model -/

/-- Model of Go `error` values as used by this repository: the syscall and io
sentinels, `context.Canceled`, values implementing `net.Error` (tagged with
their `Timeout()` result), `errors.New` messages, and `fmt.Errorf` wrapping
with a prefix (the rendered message is `pre ++ errMsg inner`). -/
inductive GoErr where
  | EPIPE : GoErr
  | ECONNRESET : GoErr
  | ECONNREFUSED : GoErr
  | EOF : GoErr
  | ErrUnexpectedEOF : GoErr
  | canceled : GoErr
  | netTimeout (msg : String) : GoErr
  | netNoTimeout (msg : String) : GoErr
  | new (msg : String) : GoErr
  | wrap (pre : String) (inner : GoErr) : GoErr
deriving Repr, DecidableEq

/-- The `Error()` string of a modelled Go error (syscall messages are the
Linux `strerror` texts the repository's classifiers rely on). -/
def errMsg : GoErr → String
  | .EPIPE => "broken pipe"
  | .ECONNRESET => "connection reset by peer"
  | .ECONNREFUSED => "connection refused"
  | .EOF => "EOF"
  | .ErrUnexpectedEOF => "unexpected EOF"
  | .canceled => "context canceled"
  | .netTimeout m => m
  | .netNoTimeout m => m
  | .new m => m
  | .wrap pre inner => pre ++ errMsg inner

/-- Model of Go `errors.Is(e, t)` for a sentinel target `t`: walk the unwrap
chain comparing values. -/
def errIs (e t : GoErr) : Bool :=
  if e = t then true
  else
    match e with
    | .wrap _ inner => errIs inner t
    | _ => false

/-- Model of Go `errors.As(err, &netErr)` followed by `netErr.Timeout()`: the
first value in the unwrap chain that implements `net.Error`, mapped to its
`Timeout()` result; `none` when no such value exists. -/
def asNetErrTimeout : GoErr → Option Bool
  | .netTimeout _ => some true
  | .netNoTimeout _ => some false
  | .wrap _ inner => asNetErrTimeout inner
  | _ => none

/-- Wrap an error in a chain of `fmt.Errorf` layers, outermost prefix first. -/
def wrapChain (ps : List String) (e : GoErr) : GoErr :=
  ps.foldr (fun p acc => GoErr.wrap p acc) e

/-- Model of `isRetriableError` from `internal/kube/dialer.go`. -/
def isRetriableError (e : GoErr) : Bool :=
  if errIs e .EPIPE || errIs e .ECONNRESET || errIs e .ECONNREFUSED ||
      errIs e .EOF || errIs e .ErrUnexpectedEOF then
    true
  else if (asNetErrTimeout e).getD false then
    true
  else if strContainsSub (errMsg e) "no ready pod endpoints" then
    true
  else
    false

/-! ### Address parsing (`ParseTarget`) -/

/-- Model of `kube.Target`: a parsed destination. `ns` is the `Namespace`
field; the Go zero value of a string field is `""`. -/
structure Target where
  cluster : String
  isService : Bool
  serviceName : String
  podName : String
  ns : String
  port : Int
deriving Repr, DecidableEq

/-- Strip the Kubernetes DNS suffixes exactly as `ParseTarget` and
`clusterSuffix` do: `.svc.cluster.local` first, then `.svc`. -/
def stripKubeSuffixesL (host : List Char) : List Char :=
  trimSuffixL (trimSuffixL host ('.' :: "svc.cluster.local".data)) ('.' :: "svc".data)

/-- The dot-separated labels of the host after suffix stripping. -/
def hostLabels (host : List Char) : List (List Char) :=
  splitDotL (stripKubeSuffixesL host)

/-- Model of `kube.ParseTarget` from `internal/kube/dialer.go`: split host and
port, parse and range-check the port, strip DNS suffixes, then dispatch on the
number of dot-separated labels. -/
def ParseTarget (addr : String) : Option Target :=
  match splitHostPortL addr.data with
  | none => none
  | some (host, portStr) =>
    match goAtoiL portStr with
    | none => none
    | some port =>
      if port < 1 ∨ port > 65535 then none
      else
        match hostLabels host with
        | [svc, cluster] =>
          some { cluster := String.mk cluster, isService := true,
                 serviceName := String.mk svc, podName := "", ns := "", port := port }
        | [svc, nsp, cluster] =>
          some { cluster := String.mk cluster, isService := true,
                 serviceName := String.mk svc, podName := "", ns := String.mk nsp,
                 port := port }
        | [pod, svc, nsp, cluster] =>
          some { cluster := String.mk cluster, isService := false,
                 serviceName := String.mk svc, podName := String.mk pod,
                 ns := String.mk nsp, port := port }
        | _ => none

/-! ### Cluster routing (`ClusterDialer`) -/

/-- The part of `kube.PortForwarder` that `DialContext` reads. -/
structure Forwarder where
  defaultNamespace : String
deriving Repr, DecidableEq

/-- Model of `kube.ClusterDialer`: the `Forwarders` field is a Go
`map[string]*PortForwarder`, modelled as an association list whose values are
`Option Forwarder` (`none` models a nil pointer stored under a key). -/
structure ClusterDialer where
  forwarders : List (String × Option Forwarder)
deriving Repr, DecidableEq

/-- Go map indexing `d.Forwarders[k]` restricted to key presence: the stored
value (possibly a nil pointer, `some none`) or `none` when the key is absent. -/
def lookupFwd (key : String) : List (String × Option Forwarder) → Option (Option Forwarder)
  | [] => none
  | (k, v) :: rest => if k = key then some v else lookupFwd key rest

/-- Model of `ClusterDialer.clusterSuffix`: extract the cluster name from
`addr` when its last label (after suffix stripping) is a key of the
forwarders map; `""` otherwise. -/
def clusterSuffix (d : ClusterDialer) (addr : String) : String :=
  match splitHostPortL addr.data with
  | none => ""
  | some (host, _) =>
    let parts := hostLabels host
    if parts.length < 2 then ""
    else
      let candidate := String.mk ((parts.getLast?).getD [])
      if (lookupFwd candidate d.forwarders).isSome then candidate else ""

/-- The observable outcome of `ClusterDialer.DialContext`, before any actual
dialing: which code path is taken and with what data. -/
inductive DialOutcome where
  | parseError : DialOutcome
  | forwarderMissing (cluster : String) : DialOutcome
  | kube (cluster : String) (target : Target) : DialOutcome
  | passthrough : DialOutcome
deriving Repr, DecidableEq

/-- Model of `ClusterDialer.DialContext` routing from
`internal/kube/dialer.go`: when `clusterSuffix` is non-empty take the
Kubernetes path (parse the address, look up the forwarder — a nil entry
yields the "cluster not found in forwarders map" error — and default the
namespace), otherwise dial directly (passthrough). -/
def DialContext (d : ClusterDialer) (addr : String) : DialOutcome :=
  let cluster := clusterSuffix d addr
  if cluster ≠ "" then
    match ParseTarget addr with
    | none => .parseError
    | some target =>
      match lookupFwd cluster d.forwarders with
      | some (some fwd) =>
        let target :=
          if target.ns = "" then { target with ns := fwd.defaultNamespace } else target
        .kube cluster target
      | _ => .forwarderMissing cluster
  else
    .passthrough

/-! ### The retrying target dialer (`PortForwarder.dialTarget`) -/

/-- Policy constant `dialMaxAttempts` from `internal/kube/dialer.go`. -/
def dialMaxAttempts : Nat := 6

/-- Policy constant `dialBaseBackoff` (1 second, in nanoseconds). -/
def dialBaseBackoff : Nat := 1000000000

/-- Policy constant `dialBackoffScale`. -/
def dialBackoffScale : Nat := 2

/-- Environment fixing the outcome of every external interaction of one
`dialTarget` call: the result of the resolve call and of the dial call made
during loop iteration `attempt`, and whether the caller's context is observed
cancelled during the backoff sleep of iteration `attempt`. -/
structure DialEnv where
  resolve : Nat → Except GoErr String
  dial : Nat → String → Except GoErr String
  cancelSleep : Nat → Bool

/-- The value `dialTarget` returns: a connection to a pod, the
`fmt.Errorf("dial retry cancelled: %w", ctx.Err())` error from a cancelled
backoff, or the final `lastErr` (which is `none` only if no iteration ran). -/
inductive DialRes where
  | conn (pod : String) (connId : String) : DialRes
  | cancelErr (e : GoErr) : DialRes
  | failErr (e : Option GoErr) : DialRes
deriving Repr, DecidableEq

/-- Observable trace of one `dialTarget` call: how many resolve and dial
calls ran, the completed backoff sleeps as (attempt index, duration) pairs in
order, every error recorded into `lastErr` in order, and the returned value. -/
structure DialTrace where
  resolveCalls : Nat
  dialCalls : Nat
  sleeps : List (Nat × Nat)
  errs : List GoErr
  result : DialRes
deriving Repr, DecidableEq

/-- The effective backoff base: `waitBackoff` substitutes `dialBaseBackoff`
for a zero `baseBackoff` field. -/
def effectiveBase (base : Nat) : Nat :=
  if base = 0 then dialBaseBackoff else base

/-- The error `dialTarget` returns when the backoff wait observes context
cancellation: `fmt.Errorf("dial retry cancelled: %w", ctx.Err())`. -/
def dialRetryCancelledErr : GoErr :=
  .wrap "dial retry cancelled: " .canceled

/-- One backoff decision of `PortForwarder.waitBackoff` at `attempt`:
`.ok d` means the wait completed (sleeping for `d`, or not at all on the last
attempt), `.error ()` means the context was observed cancelled during the
sleep. -/
def waitBackoffModel (env : DialEnv) (base : Nat) (attempt : Nat) :
    Except Unit (List (Nat × Nat)) :=
  if attempt = dialMaxAttempts - 1 then .ok []
  else if env.cancelSleep attempt then .error ()
  else .ok [(attempt, effectiveBase base * dialBackoffScale ^ attempt)]

/-- What one loop iteration of `dialTarget` produces before the retry
decision: a connection or a failure. -/
inductive IterRes where
  | conn (pod : String) (connId : String) : IterRes
  | fail (e : GoErr) : IterRes
deriving Repr, DecidableEq

/-- One loop iteration of `dialTarget`, up to (but not including) the retry
decision: in service mode resolve the pod name afresh (a resolve failure
skips the dial, as `continue` does in the source), then dial. Returns the
number of resolve calls made, the number of dial calls made, and the
outcome. -/
def runIter (env : DialEnv) (isService : Bool) (podName : String) (attempt : Nat) :
    Nat × Nat × IterRes :=
  match (if isService then env.resolve attempt else .ok podName) with
  | .error e => (if isService then 1 else 0, 0, .fail e)
  | .ok p =>
    match env.dial attempt p with
    | .ok c => (if isService then 1 else 0, 1, .conn p c)
    | .error e => (if isService then 1 else 0, 1, .fail e)

/-- The retry loop of `PortForwarder.dialTarget`, by structural recursion on
the remaining number of iterations (`fuel`, initially `dialMaxAttempts`). A
successful iteration returns the connection; a retriable failure records the
error and waits out the exponential backoff before the next iteration (or
returns the cancellation error when the context is cancelled during the
wait); a non-retriable failure breaks out; an exhausted loop returns the last
recorded error. -/
def dialFrom (env : DialEnv) (isService : Bool) (podName : String) (base : Nat) :
    Nat → Nat → Option GoErr → DialTrace
  | 0, _, lastErr =>
    { resolveCalls := 0, dialCalls := 0, sleeps := [], errs := [],
      result := .failErr lastErr }
  | fuel + 1, attempt, _ =>
    match runIter env isService podName attempt with
    | (rc, dc, .conn p c) =>
      { resolveCalls := rc, dialCalls := dc, sleeps := [], errs := [],
        result := .conn p c }
    | (rc, dc, .fail e) =>
      if isRetriableError e then
        match waitBackoffModel env base attempt with
        | .error () =>
          { resolveCalls := rc, dialCalls := dc, sleeps := [], errs := [e],
            result := .cancelErr dialRetryCancelledErr }
        | .ok slept =>
          let tr := dialFrom env isService podName base fuel (attempt + 1) (some e)
          { resolveCalls := rc + tr.resolveCalls, dialCalls := dc + tr.dialCalls,
            sleeps := slept ++ tr.sleeps, errs := e :: tr.errs,
            result := tr.result }
      else
        { resolveCalls := rc, dialCalls := dc, sleeps := [], errs := [e],
          result := .failErr (some e) }

/-- Model of `PortForwarder.dialTarget` applied to a parsed target: run the
retry loop from attempt 0 with `lastErr = nil`. -/
def dialTarget (env : DialEnv) (t : Target) (base : Nat) : DialTrace :=
  dialFrom env t.isService t.podName base dialMaxAttempts 0 none

/-! ### Service resolution (`ResolveServiceToPod`) -/

/-- Model of `discoveryv1.EndpointConditions`: pointers to bools are
`Option Bool` (`none` is an unset pointer). -/
structure EndpointConditions where
  ready : Option Bool
  serving : Option Bool
  terminating : Option Bool
deriving Repr, DecidableEq

/-- The part of `corev1.ObjectReference` that the resolver reads. -/
structure ObjectRef where
  kind : String
  name : String
deriving Repr, DecidableEq

/-- Model of `discoveryv1.Endpoint`: conditions and an optional target
reference. -/
structure Endpoint where
  conditions : EndpointConditions
  targetRef : Option ObjectRef
deriving Repr, DecidableEq

/-- Model of one `discoveryv1.EndpointSlice`: its endpoint list. -/
structure EndpointSlice where
  endpoints : List Endpoint
deriving Repr, DecidableEq

/-- The inner endpoint loop of `ResolveServiceToPod`: skip endpoints whose
`Ready` or `Serving` is explicitly false or whose `Terminating` is explicitly
true, and return the name of the first remaining endpoint whose `TargetRef`
has kind `"Pod"`. -/
def findPodInEndpoints : List Endpoint → Option String
  | [] => none
  | ep :: rest =>
    if ep.conditions.ready = some false then findPodInEndpoints rest
    else if ep.conditions.serving = some false then findPodInEndpoints rest
    else if ep.conditions.terminating = some true then findPodInEndpoints rest
    else
      match ep.targetRef with
      | some r => if r.kind = "Pod" then some r.name else findPodInEndpoints rest
      | none => findPodInEndpoints rest

/-- The outer slice loop of `ResolveServiceToPod`: slices in API order. -/
def findPodInSlices : List EndpointSlice → Option String
  | [] => none
  | s :: rest =>
    match findPodInEndpoints s.endpoints with
    | some n => some n
    | none => findPodInSlices rest

/-- Model of `kube.ResolveServiceToPod` from `internal/kube/client.go`,
applied to the endpoint slices the API returned for the service: the first
acceptable pod endpoint name, or the `"no ready pod endpoints found for
service ns/svc"` error. -/
def ResolveServiceToPod (slices : List EndpointSlice) (nsp svc : String) :
    Except GoErr String :=
  match findPodInSlices slices with
  | some n => .ok n
  | none =>
    .error (.new ("no ready pod endpoints found for service " ++ nsp ++ "/" ++ svc))

/-! ### HTTP retry transport (`retryTransport.RoundTrip`) -/

/-- Model of `isBrokenPipeErr` from `internal/proxy/retrytransport.go`. -/
def isBrokenPipeErr (e : GoErr) : Bool :=
  if errIs e .EPIPE || errIs e .ECONNRESET then true
  else
    strContainsSub (errMsg e) "broken pipe" ||
      strContainsSub (errMsg e) "connection reset"

instance {ε α : Type} [DecidableEq ε] [DecidableEq α] : DecidableEq (Except ε α) := fun a b =>
  match a, b with
  | .ok x, .ok y =>
    if h : x = y then .isTrue (by rw [h])
    else .isFalse (fun c => h (by injection c))
  | .error x, .error y =>
    if h : x = y then .isTrue (by rw [h])
    else .isFalse (fun c => h (by injection c))
  | .ok _, .error _ => .isFalse (fun c => Except.noConfusion c)
  | .error _, .ok _ => .isFalse (fun c => Except.noConfusion c)

/-- Observable trace of one `retryTransport.RoundTrip` call: the body bytes
delivered to each `base.RoundTrip` call in order (`none` models a nil
`req.Body`), how many times `base.CloseIdleConnections` ran, and the returned
result. -/
structure RTTrace where
  bodies : List (Option (List Nat))
  closeIdleCalls : Nat
  result : Except GoErr String
deriving Repr, DecidableEq

/-- Model of `retryTransport.RoundTrip`: the base transport's behaviour is a
function of the attempt number and the delivered body bytes. The request body
is buffered up front and replayed verbatim; after a first-attempt error
matching `isBrokenPipeErr` the idle connections are evicted and exactly one
retry is issued. -/
def retryRoundTrip (base : Nat → Option (List Nat) → Except GoErr String)
    (body : Option (List Nat)) : RTTrace :=
  match base 0 body with
  | .ok r => { bodies := [body], closeIdleCalls := 0, result := .ok r }
  | .error e =>
    if isBrokenPipeErr e then
      { bodies := [body, body], closeIdleCalls := 1, result := base 1 body }
    else
      { bodies := [body], closeIdleCalls := 0, result := .error e }

/-! ### StreamConn close (`StreamConn.Close`) -/

/-- The errors the three underlying `Close` calls of a `StreamConn` would
produce: data stream, error stream, SPDY session (`none` is a nil error). -/
structure CloseEnv where
  dataCloseErr : Option GoErr
  errStreamCloseErr : Option GoErr
  spdyCloseErr : Option GoErr
deriving Repr, DecidableEq

/-- One underlying close action, in the order `StreamConn.Close` runs them. -/
inductive CloseEvent where
  | closeData : CloseEvent
  | closeErrStream : CloseEvent
  | closeSpdy : CloseEvent
deriving Repr, DecidableEq

/-- The error the `sync.Once` body of `StreamConn.Close` stores: the data
stream's close error, or else the error stream's close error; the SPDY
session's close error is discarded. -/
def closeOnceRet (env : CloseEnv) : Option GoErr :=
  match env.dataCloseErr with
  | some e => some e
  | none => env.errStreamCloseErr

/-- Model of one `StreamConn.Close` call: the state is whether the
`sync.Once` has fired. Returns the new state, the underlying close events
this call performed, and the returned error (`none` is a nil error). -/
def scClose (env : CloseEnv) (closed : Bool) :
    Bool × List CloseEvent × Option GoErr :=
  if closed then (true, [], none)
  else (true, [.closeData, .closeErrStream, .closeSpdy], closeOnceRet env)

/-- `n` successive `StreamConn.Close` calls starting from state `closed`:
all underlying close events in order, and the per-call returned errors in
order. -/
def scCloseN (env : CloseEnv) : Bool → Nat → List CloseEvent × List (Option GoErr)
  | _, 0 => ([], [])
  | closed, n + 1 =>
    let (closed', evs, ret) := scClose env closed
    let (evs', rets) := scCloseN env closed' n
    (evs ++ evs', ret :: rets)

/-- The first non-nil error among a list of optional errors (what the spec
says repeated `Close` calls return, drawn from the full close sequence). -/
def firstNonNilErr (l : List (Option GoErr)) : Option GoErr :=
  match l with
  | [] => none
  | some e :: _ => some e
  | none :: rest => firstNonNilErr rest

/-! ### Claim-side (specification) definitions -/

/-- The specification's routing condition, word for word: the address splits
into host and port, and after stripping `.svc.cluster.local` then `.svc` the
host has at least 2 dot-separated labels whose last label is a key of the
forwarders table. -/
def specKubeAddress (d : ClusterDialer) (addr : String) : Bool :=
  match splitHostPortL addr.data with
  | none => false
  | some (host, _) =>
    let parts := hostLabels host
    decide (2 ≤ parts.length) &&
      (lookupFwd (String.mk ((parts.getLast?).getD [])) d.forwarders).isSome

/-- The amended routing condition: as `specKubeAddress`, but additionally the
last label must be non-empty (the code compares `clusterSuffix`'s result
against `""`, so an empty-string key can never route to Kubernetes). -/
def specKubeAddressStrict (d : ClusterDialer) (addr : String) : Bool :=
  match splitHostPortL addr.data with
  | none => false
  | some (host, _) =>
    let parts := hostLabels host
    decide (2 ≤ parts.length) && !((parts.getLast?).getD []).isEmpty &&
      (lookupFwd (String.mk ((parts.getLast?).getD [])) d.forwarders).isSome

/-- The specification's acceptance test for an endpoint: not skipped (`Ready`
and `Serving` not explicitly false, `Terminating` not explicitly true) and
carrying a `TargetRef` of kind `"Pod"`. -/
def acceptEndpoint (ep : Endpoint) : Bool :=
  !(decide (ep.conditions.ready = some false) ||
    decide (ep.conditions.serving = some false) ||
    decide (ep.conditions.terminating = some true)) &&
  (match ep.targetRef with
   | some r => decide (r.kind = "Pod")
   | none => false)

/-- The pod name an endpoint yields when its `TargetRef` has kind `"Pod"`. -/
def podNameOf (ep : Endpoint) : Option String :=
  match ep.targetRef with
  | some r => if r.kind = "Pod" then some r.name else none
  | none => none

/-- The five sentinel errors the retry classifier tests with `errors.Is`. -/
def retriableSentinels : List GoErr :=
  [.EPIPE, .ECONNRESET, .ECONNREFUSED, .EOF, .ErrUnexpectedEOF]

/-! ### Concrete inputs for witnesses and counterexamples -/

/-- A two-cluster forwarders table, as in the repository's tests. -/
def sampleDialer : ClusterDialer :=
  { forwarders := [("production", some { defaultNamespace := "prodns" }),
                   ("staging", some { defaultNamespace := "stagens" })] }

/-- A table whose only key is the empty string: a counterexample input for the
routing claim. -/
def emptyKeyDialer : ClusterDialer :=
  { forwarders := [("", some { defaultNamespace := "d" })] }

/-- A table storing a nil `*PortForwarder` under a key: a counterexample input
for the forwarder-lookup claim. -/
def nilValueDialer : ClusterDialer :=
  { forwarders := [("staging", none)] }

/-- A direct-pod target, as parsed from `mypod.mysvc.ns.cluster:8080`. -/
def podTargetSample : Target :=
  { cluster := "cluster", isService := false, serviceName := "mysvc",
    podName := "mypod", ns := "ns", port := 8080 }

/-- A service-mode target, as parsed from `mysvc.ns.cluster:8080`. -/
def svcTargetSample : Target :=
  { cluster := "cluster", isService := true, serviceName := "mysvc",
    podName := "", ns := "ns", port := 8080 }

/-- Dial environment in which every dial fails with a wrapped `io.EOF` and
the context is never cancelled (the retry-exhaustion scenario). -/
def envAllEOF : DialEnv :=
  { resolve := fun _ => .ok "pod-a",
    dial := fun _ _ => .error (.wrap "dial: " .EOF),
    cancelSleep := fun _ => false }

/-- Dial environment in which the first dial fails with a wrapped `EPIPE` and
the context is cancelled during every backoff sleep. -/
def envCancelled : DialEnv :=
  { resolve := fun _ => .ok "pod-a",
    dial := fun _ _ => .error (.wrap "dial: " .EPIPE),
    cancelSleep := fun _ => true }

/-- Dial environment for the transient-then-succeed scenario: dial attempts 0
and 1 fail with a wrapped `ECONNRESET`, attempt 2 yields a live stream; the
resolver always succeeds. -/
def envTransient : DialEnv :=
  { resolve := fun _ => .ok "pod-a",
    dial := fun k _ => if k < 2 then .error (.wrap "SPDY dial: " .ECONNRESET) else .ok "conn",
    cancelSleep := fun _ => false }

/-- Close environment whose data-stream close fails: a counterexample input
for the close-idempotency claim. -/
def closeEnvDataFail : CloseEnv :=
  { dataCloseErr := some (.new "data close failed"),
    errStreamCloseErr := none,
    spdyCloseErr := some (.new "spdy close failed") }

/-- Close environment in which only the SPDY session close fails. -/
def closeEnvSpdyFail : CloseEnv :=
  { dataCloseErr := none, errStreamCloseErr := none,
    spdyCloseErr := some (.new "spdy close failed") }

/-- An endpoint-slice list exercising every skip rule: a not-ready endpoint,
a not-serving endpoint, a terminating endpoint, a non-Pod target, then a
ready pod. -/
def slicesSample : List EndpointSlice :=
  [{ endpoints :=
      [{ conditions := { ready := some false, serving := none, terminating := none },
         targetRef := some { kind := "Pod", name := "pod-notready" } },
       { conditions := { ready := none, serving := some false, terminating := none },
         targetRef := some { kind := "Pod", name := "pod-notserving" } }] },
   { endpoints :=
      [{ conditions := { ready := some true, serving := some true, terminating := some true },
         targetRef := some { kind := "Pod", name := "pod-terminating" } },
       { conditions := { ready := none, serving := none, terminating := none },
         targetRef := some { kind := "Node", name := "node-1" } },
       { conditions := { ready := some true, serving := none, terminating := some false },
         targetRef := some { kind := "Pod", name := "pod-ready" } }] }]

/-- A base-transport behaviour that fails the first attempt with a wrapped
`EPIPE` and succeeds on the retry. -/
def baseBrokenPipeOnce : Nat → Option (List Nat) → Except GoErr String :=
  fun k _ => if k = 0 then .error (.wrap "write: " .EPIPE) else .ok "resp"

/-- The number of loop iterations a trace records: in service mode every
iteration makes exactly one resolve call, otherwise exactly one dial call. -/
def iterCount (isService : Bool) (tr : DialTrace) : Nat :=
  if isService then tr.resolveCalls else tr.dialCalls

/-! ### Helper lemmas about the error classifiers -/

theorem errIs_wrapChain_self (ps : List String) (s : GoErr) :
    errIs (wrapChain ps s) s = true := by
  induction ps with
  | nil =>
    show errIs s s = true
    cases s <;> (rw [errIs]; try exact if_pos rfl) <;>
      (intro pre inner h; exact GoErr.noConfusion h)
  | cons p ps ih =>
    show errIs (.wrap p (wrapChain ps s)) s = true
    rw [errIs]
    split
    · rfl
    · exact ih

theorem asNetErrTimeout_wrapChain (ps : List String) (m : String) :
    asNetErrTimeout (wrapChain ps (.netTimeout m)) = some true := by
  induction ps with
  | nil => rfl
  | cons p ps ih =>
    show asNetErrTimeout (.wrap p (wrapChain ps (.netTimeout m))) = some true
    rw [asNetErrTimeout]
    exact ih

/-- Claim C4: the retry classifier `isRetriableError` accepts every error
wrapping one of the sentinels `EPIPE`, `ECONNRESET`, `ECONNREFUSED`, `EOF`,
`ErrUnexpectedEOF` at any depth, every wrapped `net.Error` reporting
`Timeout() = true`, and every error whose message contains
`"no ready pod endpoints"`; it rejects the bare error
`errors.New("permission denied")`. -/
theorem claim_C4 :
    (∀ ps s, s ∈ retriableSentinels → isRetriableError (wrapChain ps s) = true)
    ∧ (∀ ps m, isRetriableError (wrapChain ps (.netTimeout m)) = true)
    ∧ (∀ e, strContainsSub (errMsg e) "no ready pod endpoints" = true →
        isRetriableError e = true)
    ∧ isRetriableError (.new "permission denied") = false := by
  refine ⟨?_, ?_, ?_, by decide⟩
  · intro ps s hs
    fin_cases hs <;> simp [isRetriableError, errIs_wrapChain_self]
  · intro ps m
    simp [isRetriableError, asNetErrTimeout_wrapChain]
  · intro e he
    simp [isRetriableError, he]

/-- Witness for claim C4 at concrete errors. -/
theorem claim_C4_witness :
    isRetriableError (wrapChain ["read: "] .ECONNRESET) = true
    ∧ isRetriableError (wrapChain ["request: "] (.netTimeout "i/o timeout")) = true
    ∧ isRetriableError (.new "no ready pod endpoints found for service cache/redis") = true :=
  ⟨claim_C4.1 ["read: "] .ECONNRESET (by decide),
   claim_C4.2.1 ["request: "] "i/o timeout",
   claim_C4.2.2.1 (.new "no ready pod endpoints found for service cache/redis") (by decide)⟩

/-- Claim C9: `retryTransport.RoundTrip` buffers the body; a first-attempt
success or a non-broken-pipe error yields exactly one attempt with the result
unchanged; a broken-pipe first failure evicts idle connections exactly once
and retries exactly once with a byte-identical body; and the broken-pipe
classifier accepts wrapped `EPIPE`/`ECONNRESET` and the two message
substrings. -/
theorem claim_C9 : ∀ (base : Nat → Option (List Nat) → Except GoErr String)
    (body : Option (List Nat)),
    (∀ r, base 0 body = .ok r →
      retryRoundTrip base body =
        { bodies := [body], closeIdleCalls := 0, result := .ok r })
    ∧ (∀ e, base 0 body = .error e → isBrokenPipeErr e = true →
        (retryRoundTrip base body).bodies = [body, body]
        ∧ (retryRoundTrip base body).closeIdleCalls = 1
        ∧ (retryRoundTrip base body).result = base 1 body)
    ∧ (∀ e, base 0 body = .error e → isBrokenPipeErr e = false →
        retryRoundTrip base body =
          { bodies := [body], closeIdleCalls := 0, result := .error e })
    ∧ (∀ b, b ∈ (retryRoundTrip base body).bodies → b = body)
    ∧ (retryRoundTrip base body).bodies.length ≤ 2
    ∧ (retryRoundTrip base body).closeIdleCalls ≤ 1
    ∧ (∀ ps, isBrokenPipeErr (wrapChain ps .EPIPE) = true)
    ∧ (∀ ps, isBrokenPipeErr (wrapChain ps .ECONNRESET) = true)
    ∧ (∀ e, strContainsSub (errMsg e) "broken pipe" = true → isBrokenPipeErr e = true)
    ∧ (∀ e, strContainsSub (errMsg e) "connection reset" = true →
        isBrokenPipeErr e = true) := by
  intro base body
  refine ⟨?_, ?_, ?_, ?_, ?_, ?_, ?_, ?_, ?_, ?_⟩
  · intro r hr
    simp [retryRoundTrip, hr]
  · intro e he hbp
    simp [retryRoundTrip, he, hbp]
  · intro e he hbp
    simp [retryRoundTrip, he, hbp]
  · intro b hb
    revert hb
    cases h : base 0 body with
    | ok r => simp [retryRoundTrip, h]
    | error e => cases hbp : isBrokenPipeErr e <;> simp [retryRoundTrip, h, hbp]
  · cases h : base 0 body with
    | ok r => simp [retryRoundTrip, h]
    | error e => cases hbp : isBrokenPipeErr e <;> simp [retryRoundTrip, h, hbp]
  · cases h : base 0 body with
    | ok r => simp [retryRoundTrip, h]
    | error e => cases hbp : isBrokenPipeErr e <;> simp [retryRoundTrip, h, hbp]
  · intro ps
    simp [isBrokenPipeErr, errIs_wrapChain_self]
  · intro ps
    simp [isBrokenPipeErr, errIs_wrapChain_self]
  · intro e he
    simp [isBrokenPipeErr, he]
  · intro e he
    simp [isBrokenPipeErr, he]

/-- Witness for claim C9: a first attempt failing with a wrapped `EPIPE`
leads to one idle-connection eviction and one retry with the same body. -/
theorem claim_C9_witness :
    (retryRoundTrip baseBrokenPipeOnce (some [1, 2, 3])).bodies =
      [some [1, 2, 3], some [1, 2, 3]]
    ∧ (retryRoundTrip baseBrokenPipeOnce (some [1, 2, 3])).closeIdleCalls = 1
    ∧ (retryRoundTrip baseBrokenPipeOnce (some [1, 2, 3])).result =
      baseBrokenPipeOnce 1 (some [1, 2, 3]) :=
  (claim_C9 baseBrokenPipeOnce (some [1, 2, 3])).2.1
    (.wrap "write: " .EPIPE) (by decide) (by decide)

/-- After the `sync.Once` has fired, every further `Close` call performs no
underlying close and returns nil. -/
theorem scCloseN_closed (env : CloseEnv) (m : Nat) :
    scCloseN env true m = ([], List.replicate m none) := by
  induction m with
  | zero => rfl
  | succ k ih => simp [scCloseN, scClose, ih, List.replicate_succ]

/-- Counterexample to claim C5 as stated: with a failing data-stream close,
the second `Close` call returns nil rather than the first call's error; and
with only the SPDY-session close failing, `Close` returns nil although the
first non-nil error of the close sequence is the SPDY error. -/
theorem claim_C5_counterexample :
    (scCloseN closeEnvDataFail false 2).2 = [some (.new "data close failed"), none]
    ∧ firstNonNilErr [closeEnvDataFail.dataCloseErr, closeEnvDataFail.errStreamCloseErr,
        closeEnvDataFail.spdyCloseErr] = some (.new "data close failed")
    ∧ ¬ (∀ r ∈ (scCloseN closeEnvDataFail false 2).2,
        r = firstNonNilErr [closeEnvDataFail.dataCloseErr,
          closeEnvDataFail.errStreamCloseErr, closeEnvDataFail.spdyCloseErr])
    ∧ (scCloseN closeEnvSpdyFail false 1).2 = [none]
    ∧ firstNonNilErr [closeEnvSpdyFail.dataCloseErr, closeEnvSpdyFail.errStreamCloseErr,
        closeEnvSpdyFail.spdyCloseErr] = some (.new "spdy close failed")
    ∧ ¬ ((scCloseN closeEnvSpdyFail false 1).2 =
        [firstNonNilErr [closeEnvSpdyFail.dataCloseErr,
          closeEnvSpdyFail.errStreamCloseErr, closeEnvSpdyFail.spdyCloseErr]]) := by
  decide

/-- Claim C5 as amended: no matter how many times `Close` is called, the
underlying close sequence (data stream, error stream, SPDY session, in that
order) runs exactly once; the first call returns the first non-nil error of
closing the data stream then the error stream (the SPDY session close error
is discarded); every later call returns nil. -/
theorem claim_C5_amended (env : CloseEnv) (n : Nat) (h : 1 ≤ n) :
    (scCloseN env false n).1 = [.closeData, .closeErrStream, .closeSpdy]
    ∧ (scCloseN env false n).2 = closeOnceRet env :: List.replicate (n - 1) none := by
  obtain ⟨k, rfl⟩ : ∃ k, n = k + 1 := ⟨n - 1, by omega⟩
  simp [scCloseN, scClose, scCloseN_closed]

/-- Witness for the amended claim C5 at three `Close` calls. -/
theorem claim_C5_witness :
    (scCloseN closeEnvDataFail false 3).1 = [.closeData, .closeErrStream, .closeSpdy]
    ∧ (scCloseN closeEnvDataFail false 3).2 =
      closeOnceRet closeEnvDataFail :: List.replicate 2 none :=
  claim_C5_amended closeEnvDataFail 3 (by decide)

/-! ### The service resolver (claim C7) -/

theorem acceptEndpoint_podNameOf (ep : Endpoint) (h : acceptEndpoint ep = true) :
    ∃ r, ep.targetRef = some r ∧ podNameOf ep = some r.name := by
  unfold acceptEndpoint at h
  cases htr : ep.targetRef with
  | none => simp [htr] at h
  | some r =>
    refine ⟨r, rfl, ?_⟩
    simp only [htr, Bool.and_eq_true, decide_eq_true_eq] at h
    simp [podNameOf, htr, h.2]

theorem findPodInEndpoints_eq (eps : List Endpoint) :
    findPodInEndpoints eps = (eps.find? acceptEndpoint).bind podNameOf := by
  induction eps with
  | nil => rfl
  | cons ep rest ih =>
    by_cases h1 : ep.conditions.ready = some false
    · have hacc : acceptEndpoint ep = false := by simp [acceptEndpoint, h1]
      rw [findPodInEndpoints, List.find?_cons_of_neg _ (by simp [hacc])]
      simp [h1, ih]
    · by_cases h2 : ep.conditions.serving = some false
      · have hacc : acceptEndpoint ep = false := by simp [acceptEndpoint, h2]
        rw [findPodInEndpoints, List.find?_cons_of_neg _ (by simp [hacc])]
        simp [h1, h2, ih]
      · by_cases h3 : ep.conditions.terminating = some true
        · have hacc : acceptEndpoint ep = false := by simp [acceptEndpoint, h3]
          rw [findPodInEndpoints, List.find?_cons_of_neg _ (by simp [hacc])]
          simp [h1, h2, h3, ih]
        · cases htr : ep.targetRef with
          | none =>
            have hacc : acceptEndpoint ep = false := by simp [acceptEndpoint, htr]
            rw [findPodInEndpoints, List.find?_cons_of_neg _ (by simp [hacc])]
            simp [h1, h2, h3, htr, ih]
          | some r =>
            by_cases hk : r.kind = "Pod"
            · have hacc : acceptEndpoint ep = true := by
                simp [acceptEndpoint, h1, h2, h3, htr, hk]
              rw [findPodInEndpoints, List.find?_cons_of_pos _ hacc]
              simp [h1, h2, h3, htr, hk, podNameOf]
            · have hacc : acceptEndpoint ep = false := by simp [acceptEndpoint, htr, hk]
              rw [findPodInEndpoints, List.find?_cons_of_neg _ (by simp [hacc])]
              simp [h1, h2, h3, htr, hk, ih]

theorem findPodInSlices_eq (ss : List EndpointSlice) :
    findPodInSlices ss =
      ((ss.map EndpointSlice.endpoints).flatten.find? acceptEndpoint).bind podNameOf := by
  induction ss with
  | nil => rfl
  | cons s rest ih =>
    rw [findPodInSlices, List.map_cons, List.flatten_cons, List.find?_append,
      findPodInEndpoints_eq]
    cases h : s.endpoints.find? acceptEndpoint with
    | none => simp [ih]
    | some ep =>
      obtain ⟨r, _, hname⟩ := acceptEndpoint_podNameOf ep (List.find?_some h)
      simp [hname]

theorem strContainsSub_of_prefix (pre tail sub : String)
    (h : sub.data.isPrefixOf pre.data = true) :
    strContainsSub (pre ++ tail) sub = true := by
  unfold strContainsSub
  rw [String.data_append]
  apply List.any_eq_true.mpr
  refine ⟨pre.data ++ tail.data, (List.mem_tails _ _).mpr (List.suffix_refl _), ?_⟩
  rw [List.isPrefixOf_iff_prefix] at h ⊢
  exact h.trans (List.prefix_append _ _)

/-- Claim C7: `ResolveServiceToPod` returns the pod name of the first
endpoint — slices in API order, endpoints in order — that is not skipped
(`Ready` or `Serving` explicitly false, or `Terminating` explicitly true;
unset flags are permissive) and whose `TargetRef` has kind `"Pod"`; with no
such endpoint it fails with an error whose message contains
`"no ready pod endpoints"`. -/
theorem claim_C7 (slices : List EndpointSlice) (nsp svc : String) :
    (∀ ep, (slices.map EndpointSlice.endpoints).flatten.find? acceptEndpoint = some ep →
      ∃ r, ep.targetRef = some r ∧ ResolveServiceToPod slices nsp svc = .ok r.name)
    ∧ ((slices.map EndpointSlice.endpoints).flatten.find? acceptEndpoint = none →
      ∃ e, ResolveServiceToPod slices nsp svc = .error e
        ∧ strContainsSub (errMsg e) "no ready pod endpoints" = true) := by
  constructor
  · intro ep hfind
    obtain ⟨r, htr, hname⟩ := acceptEndpoint_podNameOf ep (List.find?_some hfind)
    refine ⟨r, htr, ?_⟩
    unfold ResolveServiceToPod
    rw [findPodInSlices_eq, hfind]
    simp [hname]
  · intro hfind
    refine ⟨.new ("no ready pod endpoints found for service " ++ nsp ++ "/" ++ svc), ?_, ?_⟩
    · unfold ResolveServiceToPod
      rw [findPodInSlices_eq, hfind]
      rfl
    · show strContainsSub ("no ready pod endpoints found for service " ++ nsp ++ "/" ++ svc)
        "no ready pod endpoints" = true
      rw [String.append_assoc, String.append_assoc]
      exact strContainsSub_of_prefix _ _ _ (by decide)

/-- Witness for claim C7: on `slicesSample` the first acceptable endpoint is
the ready pod in the second slice, and the resolver returns its name. -/
theorem claim_C7_witness :
    ∃ r, (Endpoint.targetRef
        { conditions := { ready := some true, serving := none, terminating := some false },
          targetRef := some { kind := "Pod", name := "pod-ready" } }) = some r
      ∧ ResolveServiceToPod slicesSample "cache" "redis" = .ok r.name :=
  (claim_C7 slicesSample "cache" "redis").1
    { conditions := { ready := some true, serving := none, terminating := some false },
      targetRef := some { kind := "Pod", name := "pod-ready" } }
    (by decide)

/-! ### The address parser (claim C2) -/

/-- Claim C2: `ParseTarget` fails when the address does not split into host
and port, when the port does not parse, or when the parsed port is outside
1..65535; otherwise the dot-separated labels of the suffix-stripped host
determine the result: 2 labels → service mode `(svc, "", cluster)`, 3
labels → service mode `(svc, ns, cluster)`, 4 labels → pod mode
`(pod, svc, ns, cluster)`, and any other label count fails. -/
theorem claim_C2 (addr : String) :
    (splitHostPortL addr.data = none → ParseTarget addr = none)
    ∧ (∀ h p, splitHostPortL addr.data = some (h, p) →
        (goAtoiL p = none → ParseTarget addr = none)
        ∧ (∀ n, goAtoiL p = some n → (n < 1 ∨ n > 65535) → ParseTarget addr = none)
        ∧ (∀ n, goAtoiL p = some n → 1 ≤ n → n ≤ 65535 →
            (∀ svc cluster, hostLabels h = [svc, cluster] →
              ParseTarget addr =
                some ⟨String.mk cluster, true, String.mk svc, "", "", n⟩)
            ∧ (∀ svc nsp cluster, hostLabels h = [svc, nsp, cluster] →
              ParseTarget addr =
                some ⟨String.mk cluster, true, String.mk svc, "", String.mk nsp, n⟩)
            ∧ (∀ pod svc nsp cluster, hostLabels h = [pod, svc, nsp, cluster] →
              ParseTarget addr =
                some ⟨String.mk cluster, false, String.mk svc, String.mk pod,
                      String.mk nsp, n⟩)
            ∧ (¬((hostLabels h).length = 2 ∨ (hostLabels h).length = 3 ∨
                  (hostLabels h).length = 4) → ParseTarget addr = none))) := by
  constructor
  · intro hs
    unfold ParseTarget
    rw [hs]
  · intro h p hs
    refine ⟨?_, ?_, ?_⟩
    · intro ha
      unfold ParseTarget
      rw [hs]
      simp only [ha]
    · intro n ha hrange
      unfold ParseTarget
      rw [hs]
      simp only [ha, if_pos hrange]
    · intro n ha h1 h2
      have hrange : ¬(n < 1 ∨ n > 65535) := by omega
      refine ⟨?_, ?_, ?_, ?_⟩
      · intro svc cluster hll
        unfold ParseTarget
        rw [hs]
        simp only [ha, if_neg hrange, hll]
      · intro svc nsp cluster hll
        unfold ParseTarget
        rw [hs]
        simp only [ha, if_neg hrange, hll]
      · intro pod svc nsp cluster hll
        unfold ParseTarget
        rw [hs]
        simp only [ha, if_neg hrange, hll]
      · intro hlen
        unfold ParseTarget
        rw [hs]
        simp only [ha, if_neg hrange]
        rcases hll : hostLabels h with _ | ⟨a, _ | ⟨b, _ | ⟨c, _ | ⟨d, _ | ⟨e, rest⟩⟩⟩⟩⟩
        · rfl
        · rfl
        · exact absurd (by simp [hll]) hlen
        · exact absurd (by simp [hll]) hlen
        · exact absurd (by simp [hll]) hlen
        · rfl

/-- Witness for claim C2: the spec's pod-mode scenario
`redis-0.redis.cache.staging.svc:6379`. -/
theorem claim_C2_witness :
    ParseTarget "redis-0.redis.cache.staging.svc:6379" =
      some { cluster := "staging", isService := false, serviceName := "redis",
             podName := "redis-0", ns := "cache", port := 6379 } :=
  ((((claim_C2 "redis-0.redis.cache.staging.svc:6379").2
      "redis-0.redis.cache.staging.svc".data "6379".data (by decide)).2.2
      6379 (by decide) (by decide) (by decide)).2.2.1
      "redis-0".data "redis".data "cache".data "staging".data (by decide))

/-! ### Cluster routing (claims C1 and C10) -/

theorem clusterSuffix_ne_iff (d : ClusterDialer) (addr : String) :
    clusterSuffix d addr ≠ "" ↔ specKubeAddressStrict d addr = true := by
  unfold clusterSuffix specKubeAddressStrict
  cases hsp : splitHostPortL addr.data with
  | none => simp
  | some hp =>
    obtain ⟨host, p⟩ := hp
    by_cases hlen : (hostLabels host).length < 2
    · simp [hlen, Nat.not_le.mpr hlen]
    · have hlen2 : 2 ≤ (hostLabels host).length := Nat.not_lt.mp hlen
      cases hlk : (lookupFwd (String.mk (((hostLabels host).getLast?).getD []))
          d.forwarders).isSome
      · simp [hlen, hlk]
      · simp only [if_neg hlen, hlk, if_pos rfl, decide_eq_true (hlen2), Bool.true_and,
          Bool.and_true, if_true]
        constructor
        · intro hne
          have : ((hostLabels host).getLast?).getD [] ≠ [] := by
            intro hnil
            apply hne
            simp [hnil]
          simp [List.isEmpty_iff, this]
        · intro hb hmk
          have : ((hostLabels host).getLast?).getD [] = [] := by
            have := congrArg String.data hmk
            simpa using this
          rw [this] at hb
          simp at hb

/-- Counterexample to claim C1 as stated: with the empty string as a table
key and the address `a.:80`, the host splits into two labels whose last label
is a key of the table, yet `DialContext` dials directly (passthrough),
because the code signals "no cluster" by the empty string. -/
theorem claim_C1_counterexample :
    specKubeAddress emptyKeyDialer "a.:80" = true
    ∧ DialContext emptyKeyDialer "a.:80" = .passthrough := by
  decide

/-- Claim C1 as amended: `DialContext` takes the Kubernetes path iff the
address splits into host and port and, after suffix stripping, the host has
at least 2 dot-separated labels and its last label is a NON-EMPTY key of the
forwarders table; on that path a parse failure is returned as an error with
no passthrough fallback, and in every other case the address is dialed
directly over TCP. -/
theorem claim_C1_amended (d : ClusterDialer) (addr : String) :
    (DialContext d addr ≠ .passthrough ↔ specKubeAddressStrict d addr = true)
    ∧ (specKubeAddressStrict d addr = true → ParseTarget addr = none →
        DialContext d addr = .parseError)
    ∧ (specKubeAddressStrict d addr = false → DialContext d addr = .passthrough) := by
  refine ⟨?_, ?_, ?_⟩
  · rw [← clusterSuffix_ne_iff]
    unfold DialContext
    by_cases hc : clusterSuffix d addr = ""
    · simp [hc]
    · simp only [if_pos hc, ne_eq]
      constructor
      · intro _
        exact hc
      · intro _
        cases hpt : ParseTarget addr with
        | none => simp
        | some target =>
          cases hlk : lookupFwd (clusterSuffix d addr) d.forwarders with
          | none => simp
          | some v => cases v <;> simp
  · intro hstrict hpt
    have hc : clusterSuffix d addr ≠ "" := (clusterSuffix_ne_iff d addr).mpr hstrict
    unfold DialContext
    rw [if_pos hc, hpt]
  · intro hstrict
    have hc : ¬clusterSuffix d addr ≠ "" := by
      rw [clusterSuffix_ne_iff, hstrict]
      simp
    unfold DialContext
    rw [if_neg hc]

/-- Witness for the amended claim C1: a known-cluster address takes the
Kubernetes path, a known-cluster address with an invalid port returns the
parse error with no passthrough, and a foreign address is passthrough. -/
theorem claim_C1_witness :
    DialContext sampleDialer "redis.staging:6379" ≠ .passthrough
    ∧ DialContext sampleDialer "redis.staging:0" = .parseError
    ∧ DialContext sampleDialer "api.github.com:443" = .passthrough :=
  ⟨(claim_C1_amended sampleDialer "redis.staging:6379").1.mpr (by decide),
   (claim_C1_amended sampleDialer "redis.staging:0").2.1 (by decide) (by decide),
   (claim_C1_amended sampleDialer "api.github.com:443").2.2 (by decide)⟩

theorem lookupFwd_isSome_of_all (l : List (String × Option Forwarder)) (k : String)
    (hall : ∀ kv ∈ l, kv.2.isSome = true) :
    ∀ v, lookupFwd k l = some v → v.isSome = true := by
  induction l with
  | nil => intro v hv; exact absurd hv (by simp [lookupFwd])
  | cons kv rest ih =>
    intro v hv
    rw [lookupFwd] at hv
    by_cases hk : kv.1 = k
    · rw [if_pos hk] at hv
      cases hv
      exact hall kv (List.mem_cons_self kv rest)
    · rw [if_neg hk] at hv
      exact ih (fun x hx => hall x (List.mem_cons_of_mem kv hx)) v hv

/-- Counterexample to claim C10 as stated: a table may store a nil
`*PortForwarder` under a key; `clusterSuffix` still returns that key (it only
tests key presence), and `DialContext` then reaches the
"cluster not found in forwarders map" error branch. -/
theorem claim_C10_counterexample :
    clusterSuffix nilValueDialer "redis.staging:80" = "staging"
    ∧ (lookupFwd "staging" nilValueDialer.forwarders).isSome = true
    ∧ DialContext nilValueDialer "redis.staging:80" = .forwarderMissing "staging" := by
  decide

/-- Claim C10 as amended: `clusterSuffix` always returns either the empty
string or a key present in the forwarders table, and whenever every stored
forwarder value is non-nil the "cluster not found in forwarders map" branch
of `DialContext` is unreachable. -/
theorem claim_C10_amended (d : ClusterDialer) (addr : String) :
    (clusterSuffix d addr = ""
      ∨ (lookupFwd (clusterSuffix d addr) d.forwarders).isSome = true)
    ∧ ((∀ kv ∈ d.forwarders, kv.2.isSome = true) →
        ∀ c, DialContext d addr ≠ .forwarderMissing c) := by
  have hkey : clusterSuffix d addr = ""
      ∨ (lookupFwd (clusterSuffix d addr) d.forwarders).isSome = true := by
    unfold clusterSuffix
    cases hsp : splitHostPortL addr.data with
    | none => exact Or.inl rfl
    | some hp =>
      obtain ⟨host, p⟩ := hp
      by_cases hlen : (hostLabels host).length < 2
      · simp [hlen]
      · cases hlk : (lookupFwd (String.mk (((hostLabels host).getLast?).getD []))
            d.forwarders).isSome
        · simp [hlen, hlk]
        · right
          simp only [if_neg hlen, hlk, if_pos rfl, if_true]
  refine ⟨hkey, ?_⟩
  intro hall c
  unfold DialContext
  by_cases hc : clusterSuffix d addr = ""
  · rw [if_neg (by simp [hc])]
    simp
  · rw [if_pos hc]
    cases hpt : ParseTarget addr with
    | none => simp
    | some target =>
      have hsome : (lookupFwd (clusterSuffix d addr) d.forwarders).isSome = true := by
        rcases hkey with h | h
        · exact absurd h hc
        · exact h
      cases hlk : lookupFwd (clusterSuffix d addr) d.forwarders with
      | none => rw [hlk] at hsome; simp at hsome
      | some v =>
        cases v with
        | none =>
          have := lookupFwd_isSome_of_all d.forwarders (clusterSuffix d addr) hall
            none hlk
          simp at this
        | some fwd => simp

/-- Witness for the amended claim C10: on the sample table (all values
non-nil) the forwarder-missing branch is never taken. -/
theorem claim_C10_witness :
    DialContext sampleDialer "redis.staging:6379" ≠ .forwarderMissing "staging" :=
  (claim_C10_amended sampleDialer "redis.staging:6379").2 (by decide) "staging"

/-! ### The retrying dialer (claims C3, C6, C8) -/

theorem waitBackoffModel_ok (env : DialEnv) (base attempt : Nat) (slept : List (Nat × Nat))
    (h : waitBackoffModel env base attempt = .ok slept) :
    slept = [] ∨ (attempt ≠ dialMaxAttempts - 1
      ∧ slept = [(attempt, effectiveBase base * dialBackoffScale ^ attempt)]) := by
  unfold waitBackoffModel at h
  by_cases h1 : attempt = dialMaxAttempts - 1
  · rw [if_pos h1] at h
    cases h
    exact Or.inl rfl
  · rw [if_neg h1] at h
    by_cases h2 : env.cancelSleep attempt = true
    · simp [h2] at h
    · simp only [h2, if_false, Bool.false_eq_true] at h
      cases h
      exact Or.inr ⟨h1, rfl⟩

theorem runIter_counts (env : DialEnv) (svcMode : Bool) (pod : String) (attempt : Nat) :
    (runIter env svcMode pod attempt).1 ≤ 1 ∧ (runIter env svcMode pod attempt).2.1 ≤ 1 := by
  unfold runIter
  constructor <;> (repeat' split) <;> simp

/-- The loop invariant of `dialFrom`: call counts are bounded by the fuel,
every completed sleep lies strictly before the last attempt and has the
exponential duration, every recorded error except possibly the last is
retriable, and a `failErr` result returns the last recorded error (or the
incoming `lastErr` when no iteration recorded one). -/
theorem dialFrom_invariant (env : DialEnv) (svcMode : Bool) (pod : String) (base : Nat) :
    ∀ (fuel attempt : Nat) (lastErr : Option GoErr),
      (dialFrom env svcMode pod base fuel attempt lastErr).resolveCalls ≤ fuel
      ∧ (dialFrom env svcMode pod base fuel attempt lastErr).dialCalls ≤ fuel
      ∧ (∀ q ∈ (dialFrom env svcMode pod base fuel attempt lastErr).sleeps,
          attempt ≤ q.1 ∧ q.1 < attempt + fuel ∧ q.1 ≠ dialMaxAttempts - 1
          ∧ q.2 = effectiveBase base * dialBackoffScale ^ q.1)
      ∧ (∀ e ∈ (dialFrom env svcMode pod base fuel attempt lastErr).errs.dropLast,
          isRetriableError e = true)
      ∧ (∀ eo, (dialFrom env svcMode pod base fuel attempt lastErr).result = .failErr eo →
          eo = ((dialFrom env svcMode pod base fuel attempt lastErr).errs.getLast?).elim
            lastErr some) := by
  intro fuel
  induction fuel with
  | zero =>
    intro attempt lastErr
    refine ⟨by simp [dialFrom], by simp [dialFrom], by simp [dialFrom],
      by simp [dialFrom], ?_⟩
    intro eo heo
    rw [dialFrom] at heo ⊢
    cases heo
    rfl
  | succ fuel ih =>
    intro attempt lastErr
    obtain ⟨hrc1, hdc1⟩ := runIter_counts env svcMode pod attempt
    rcases hri : runIter env svcMode pod attempt with ⟨rc, dc, res⟩
    rw [hri] at hrc1 hdc1
    simp only at hrc1 hdc1
    cases res with
    | conn p c =>
      have htr : dialFrom env svcMode pod base (fuel + 1) attempt lastErr =
          { resolveCalls := rc, dialCalls := dc, sleeps := [], errs := [],
            result := .conn p c } := by
        rw [dialFrom, hri]
      rw [htr]
      refine ⟨?_, ?_, by simp, by simp, ?_⟩
      · show rc ≤ fuel + 1
        omega
      · show dc ≤ fuel + 1
        omega
      · intro eo heo
        simp at heo
    | fail e =>
      cases hret : isRetriableError e with
      | false =>
        have htr : dialFrom env svcMode pod base (fuel + 1) attempt lastErr =
            { resolveCalls := rc, dialCalls := dc, sleeps := [], errs := [e],
              result := .failErr (some e) } := by
          rw [dialFrom, hri]
          simp [hret]
        rw [htr]
        refine ⟨?_, ?_, by simp, by simp, ?_⟩
        · show rc ≤ fuel + 1
          omega
        · show dc ≤ fuel + 1
          omega
        · intro eo heo
          have heo2 : DialRes.failErr (some e) = DialRes.failErr eo := heo
          cases heo2
          simp
      | true =>
        cases hwb : waitBackoffModel env base attempt with
        | error u =>
          have htr : dialFrom env svcMode pod base (fuel + 1) attempt lastErr =
              { resolveCalls := rc, dialCalls := dc, sleeps := [], errs := [e],
                result := .cancelErr dialRetryCancelledErr } := by
            rw [dialFrom, hri]
            cases u
            simp [hret, hwb]
          rw [htr]
          refine ⟨?_, ?_, by simp, by simp, ?_⟩
          · show rc ≤ fuel + 1
            omega
          · show dc ≤ fuel + 1
            omega
          · intro eo heo
            simp at heo
        | ok slept =>
          have htr : dialFrom env svcMode pod base (fuel + 1) attempt lastErr =
              { resolveCalls :=
                  rc + (dialFrom env svcMode pod base fuel (attempt + 1) (some e)).resolveCalls,
                dialCalls :=
                  dc + (dialFrom env svcMode pod base fuel (attempt + 1) (some e)).dialCalls,
                sleeps :=
                  slept ++ (dialFrom env svcMode pod base fuel (attempt + 1) (some e)).sleeps,
                errs := e :: (dialFrom env svcMode pod base fuel (attempt + 1) (some e)).errs,
                result :=
                  (dialFrom env svcMode pod base fuel (attempt + 1) (some e)).result } := by
            rw [dialFrom, hri]
            simp [hret, hwb]
          obtain ⟨ihr, ihd, ihs, ihe, ihres⟩ := ih (attempt + 1) (some e)
          rw [htr]
          refine ⟨?_, ?_, ?_, ?_, ?_⟩
          · show rc + (dialFrom env svcMode pod base fuel (attempt + 1) (some e)).resolveCalls
              ≤ fuel + 1
            omega
          · show dc + (dialFrom env svcMode pod base fuel (attempt + 1) (some e)).dialCalls
              ≤ fuel + 1
            omega
          · intro q hq
            have hq2 : q ∈ slept ++ (dialFrom env svcMode pod base fuel (attempt + 1)
                (some e)).sleeps := hq
            rcases List.mem_append.mp hq2 with hmem | hmem
            · rcases waitBackoffModel_ok env base attempt slept hwb with rfl | ⟨hne, rfl⟩
              · simp at hmem
              · simp only [List.mem_singleton] at hmem
                subst hmem
                exact ⟨Nat.le_refl _, by omega, hne, rfl⟩
            · obtain ⟨hq1, hq2, hq3, hq4⟩ := ihs q hmem
              exact ⟨by omega, by omega, hq3, hq4⟩
          · intro x hx
            have hx2 : x ∈ (e :: (dialFrom env svcMode pod base fuel (attempt + 1)
                (some e)).errs).dropLast := hx
            cases herrs : (dialFrom env svcMode pod base fuel (attempt + 1) (some e)).errs with
            | nil =>
              rw [herrs] at hx2
              simp at hx2
            | cons e2 rest =>
              rw [herrs, List.dropLast_cons₂] at hx2
              rcases List.mem_cons.mp hx2 with rfl | hmem
              · exact hret
              · apply ihe
                rw [herrs]
                exact hmem
          · intro eo heo
            have heo2 : (dialFrom env svcMode pod base fuel (attempt + 1) (some e)).result =
                .failErr eo := heo
            have h2 := ihres eo heo2
            show eo = ((e :: (dialFrom env svcMode pod base fuel (attempt + 1)
              (some e)).errs).getLast?).elim lastErr some
            cases herrs : (dialFrom env svcMode pod base fuel (attempt + 1) (some e)).errs with
            | nil =>
              rw [herrs] at h2
              simp at h2
              simp [h2]
            | cons e2 rest =>
              rw [List.getLast?_cons_cons]
              cases hgl : (e2 :: rest).getLast? with
              | none => exact absurd hgl (by simp [List.getLast?_eq_none_iff])
              | some x =>
                rw [herrs, hgl] at h2
                simpa using h2


theorem runIter_iters (env : DialEnv) (svcMode : Bool) (pod : String) (attempt : Nat) :
    (if svcMode then (runIter env svcMode pod attempt).1
      else (runIter env svcMode pod attempt).2.1) = 1 := by
  unfold runIter
  cases svcMode with
  | false =>
    cases h : env.dial attempt pod <;> simp [h]
  | true =>
    cases hres : env.resolve attempt with
    | error e => simp [hres]
    | ok p => cases h : env.dial attempt p <;> simp [hres, h]

theorem dialFrom_iters_pos (env : DialEnv) (svcMode : Bool) (pod : String) (base : Nat)
    (fuel attempt : Nat) (lastErr : Option GoErr) :
    1 ≤ iterCount svcMode (dialFrom env svcMode pod base (fuel + 1) attempt lastErr) := by
  have hit := runIter_iters env svcMode pod attempt
  rcases hri : runIter env svcMode pod attempt with ⟨rc, dc, res⟩
  rw [hri] at hit
  simp only at hit
  cases res with
  | conn p c =>
    have htr : dialFrom env svcMode pod base (fuel + 1) attempt lastErr =
        { resolveCalls := rc, dialCalls := dc, sleeps := [], errs := [],
          result := .conn p c } := by
      rw [dialFrom, hri]
    rw [htr]
    cases svcMode <;> simp [iterCount] at hit ⊢ <;> omega
  | fail e =>
    cases hret : isRetriableError e with
    | false =>
      have htr : dialFrom env svcMode pod base (fuel + 1) attempt lastErr =
          { resolveCalls := rc, dialCalls := dc, sleeps := [], errs := [e],
            result := .failErr (some e) } := by
        rw [dialFrom, hri]
        simp [hret]
      rw [htr]
      cases svcMode <;> simp [iterCount] at hit ⊢ <;> omega
    | true =>
      cases hwb : waitBackoffModel env base attempt with
      | error u =>
        cases u
        have htr : dialFrom env svcMode pod base (fuel + 1) attempt lastErr =
            { resolveCalls := rc, dialCalls := dc, sleeps := [], errs := [e],
              result := .cancelErr dialRetryCancelledErr } := by
          rw [dialFrom, hri]
          simp [hret, hwb]
        rw [htr]
        cases svcMode <;> simp [iterCount] at hit ⊢ <;> omega
      | ok slept =>
        have htr : dialFrom env svcMode pod base (fuel + 1) attempt lastErr =
            { resolveCalls :=
                rc + (dialFrom env svcMode pod base fuel (attempt + 1) (some e)).resolveCalls,
              dialCalls :=
                dc + (dialFrom env svcMode pod base fuel (attempt + 1) (some e)).dialCalls,
              sleeps :=
                slept ++ (dialFrom env svcMode pod base fuel (attempt + 1) (some e)).sleeps,
              errs := e :: (dialFrom env svcMode pod base fuel (attempt + 1) (some e)).errs,
              result := (dialFrom env svcMode pod base fuel (attempt + 1) (some e)).result } := by
          rw [dialFrom, hri]
          simp [hret, hwb]
        rw [htr]
        cases svcMode <;> simp [iterCount] at hit ⊢ <;> omega

/-- The exact backoff schedule of `dialFrom` on a full window
(`attempt + fuel = dialMaxAttempts`): a run of `m` iterations sleeps exactly
after each of its first `m - 1` iterations, at consecutive attempt indices,
each sleep lasting `effectiveBase base × 2^index`. -/
theorem dialFrom_sleeps_exact (env : DialEnv) (svcMode : Bool) (pod : String) (base : Nat) :
    ∀ (fuel attempt : Nat) (lastErr : Option GoErr),
      attempt + fuel = dialMaxAttempts →
      (dialFrom env svcMode pod base fuel attempt lastErr).sleeps =
        (List.range
            (iterCount svcMode (dialFrom env svcMode pod base fuel attempt lastErr) - 1)).map
          (fun j => (attempt + j, effectiveBase base * dialBackoffScale ^ (attempt + j))) := by
  intro fuel
  induction fuel with
  | zero =>
    intro attempt lastErr hle
    simp [dialFrom, iterCount]
  | succ fuel ih =>
    intro attempt lastErr hle
    have hit := runIter_iters env svcMode pod attempt
    rcases hri : runIter env svcMode pod attempt with ⟨rc, dc, res⟩
    rw [hri] at hit
    simp only at hit
    cases res with
    | conn p c =>
      have htr : dialFrom env svcMode pod base (fuel + 1) attempt lastErr =
          { resolveCalls := rc, dialCalls := dc, sleeps := [], errs := [],
            result := .conn p c } := by
        rw [dialFrom, hri]
      rw [htr]
      cases svcMode <;> simp [iterCount] at hit ⊢ <;> simp [hit]
    | fail e =>
      cases hret : isRetriableError e with
      | false =>
        have htr : dialFrom env svcMode pod base (fuel + 1) attempt lastErr =
            { resolveCalls := rc, dialCalls := dc, sleeps := [], errs := [e],
              result := .failErr (some e) } := by
          rw [dialFrom, hri]
          simp [hret]
        rw [htr]
        cases svcMode <;> simp [iterCount] at hit ⊢ <;> simp [hit]
      | true =>
        cases hwb : waitBackoffModel env base attempt with
        | error u =>
          cases u
          have htr : dialFrom env svcMode pod base (fuel + 1) attempt lastErr =
              { resolveCalls := rc, dialCalls := dc, sleeps := [], errs := [e],
                result := .cancelErr dialRetryCancelledErr } := by
            rw [dialFrom, hri]
            simp [hret, hwb]
          rw [htr]
          cases svcMode <;> simp [iterCount] at hit ⊢ <;> simp [hit]
        | ok slept =>
          have htr : dialFrom env svcMode pod base (fuel + 1) attempt lastErr =
              { resolveCalls :=
                  rc + (dialFrom env svcMode pod base fuel (attempt + 1) (some e)).resolveCalls,
                dialCalls :=
                  dc + (dialFrom env svcMode pod base fuel (attempt + 1) (some e)).dialCalls,
                sleeps :=
                  slept ++ (dialFrom env svcMode pod base fuel (attempt + 1) (some e)).sleeps,
                errs := e :: (dialFrom env svcMode pod base fuel (attempt + 1) (some e)).errs,
                result := (dialFrom env svcMode pod base fuel (attempt + 1) (some e)).result } := by
            rw [dialFrom, hri]
            simp [hret, hwb]
          by_cases h5 : attempt = dialMaxAttempts - 1
          · have hfuel : fuel = 0 := by omega
            subst hfuel
            have hslept : slept = [] := by
              unfold waitBackoffModel at hwb
              rw [if_pos h5] at hwb
              cases hwb
              rfl
            subst hslept
            rw [htr]
            cases svcMode <;> simp [iterCount, dialFrom] at hit ⊢ <;> simp [hit]
          · obtain ⟨f2, rfl⟩ : ∃ f2, fuel = f2 + 1 := ⟨fuel - 1, by omega⟩
            have hslept : slept =
                [(attempt, effectiveBase base * dialBackoffScale ^ attempt)] := by
              unfold waitBackoffModel at hwb
              rw [if_neg h5] at hwb
              by_cases hcs : env.cancelSleep attempt = true
              · simp [hcs] at hwb
              · simp only [hcs, Bool.false_eq_true, if_false] at hwb
                cases hwb
                rfl
            subst hslept
            have hchild := ih (attempt + 1) (some e) (by omega)
            have hpos := dialFrom_iters_pos env svcMode pod base f2 (attempt + 1) (some e)
            obtain ⟨k, hk⟩ : ∃ k, iterCount svcMode
                (dialFrom env svcMode pod base (f2 + 1) (attempt + 1) (some e)) = k + 1 :=
              ⟨iterCount svcMode (dialFrom env svcMode pod base (f2 + 1) (attempt + 1)
                (some e)) - 1, by omega⟩
            rw [htr]
            have hcomb : iterCount svcMode
                { resolveCalls := rc +
                    (dialFrom env svcMode pod base (f2 + 1) (attempt + 1) (some e)).resolveCalls,
                  dialCalls := dc +
                    (dialFrom env svcMode pod base (f2 + 1) (attempt + 1) (some e)).dialCalls,
                  sleeps := [(attempt, effectiveBase base * dialBackoffScale ^ attempt)] ++
                    (dialFrom env svcMode pod base (f2 + 1) (attempt + 1) (some e)).sleeps,
                  errs := e ::
                    (dialFrom env svcMode pod base (f2 + 1) (attempt + 1) (some e)).errs,
                  result :=
                    (dialFrom env svcMode pod base (f2 + 1) (attempt + 1) (some e)).result } =
                1 + iterCount svcMode
                  (dialFrom env svcMode pod base (f2 + 1) (attempt + 1) (some e)) := by
              cases svcMode <;> simp [iterCount] at hit ⊢ <;> omega
            rw [hcomb, hk]
            have harith : 1 + (k + 1) - 1 = k + 1 := by omega
            rw [harith, List.range_succ_eq_map]
            simp only [List.map_cons, List.map_map]
            show (attempt, effectiveBase base * dialBackoffScale ^ attempt) ::
                (dialFrom env svcMode pod base (f2 + 1) (attempt + 1) (some e)).sleeps = _
            congr 1
            rw [hchild, hk]
            have harith2 : k + 1 - 1 = k := by omega
            rw [harith2]
            refine List.map_congr_left (fun j hj => ?_)
            show (attempt + 1 + j, effectiveBase base * dialBackoffScale ^ (attempt + 1 + j)) =
              (attempt + Nat.succ j,
                effectiveBase base * dialBackoffScale ^ (attempt + Nat.succ j))
            rw [show attempt + Nat.succ j = attempt + 1 + j from by omega]

/-- Claim C3: `dialTarget` makes at most `dialMaxAttempts = 6` attempts; every
completed backoff sleep belongs to an attempt `i < 5` and lasts
`effectiveBase base × 2^i` (with the production base `dialBaseBackoff = 1 s`);
a non-retriable failure stops the loop (every recorded error but the last is
retriable); and a failure result returns the last recorded error. -/
theorem claim_C3 (env : DialEnv) (t : Target) (base : Nat) :
    (dialTarget env t base).resolveCalls ≤ dialMaxAttempts
    ∧ (dialTarget env t base).dialCalls ≤ dialMaxAttempts
    ∧ (∀ q ∈ (dialTarget env t base).sleeps,
        q.1 < dialMaxAttempts - 1
        ∧ q.2 = effectiveBase base * dialBackoffScale ^ q.1)
    ∧ (∀ e ∈ (dialTarget env t base).errs.dropLast, isRetriableError e = true)
    ∧ (∀ eo, (dialTarget env t base).result = .failErr eo →
        eo = (dialTarget env t base).errs.getLast?)
    ∧ effectiveBase 0 = dialBaseBackoff
    ∧ (dialTarget env t base).sleeps =
        (List.range (iterCount t.isService (dialTarget env t base) - 1)).map
          (fun j => (j, effectiveBase base * dialBackoffScale ^ j)) := by
  obtain ⟨h1, h2, h3, h4, h5⟩ :=
    dialFrom_invariant env t.isService t.podName base dialMaxAttempts 0 none
  refine ⟨h1, h2, ?_, h4, ?_, rfl, ?_⟩
  · intro q hq
    obtain ⟨_, hlt, hne, hdur⟩ := h3 q hq
    refine ⟨by omega, hdur⟩
  · intro eo heo
    have h := h5 eo heo
    have helim : ∀ o : Option GoErr, o.elim (none : Option GoErr) some = o := by
      intro o
      cases o <;> rfl
    rw [h, helim]
    rfl
  · have hsch := dialFrom_sleeps_exact env t.isService t.podName base dialMaxAttempts 0 none rfl
    show (dialFrom env t.isService t.podName base dialMaxAttempts 0 none).sleeps =
      (List.range (iterCount t.isService
          (dialFrom env t.isService t.podName base dialMaxAttempts 0 none) - 1)).map
        (fun j => (j, effectiveBase base * dialBackoffScale ^ j))
    rw [hsch]
    exact List.map_congr_left (fun j hj => by simp)

/-- Witness for claim C3 on the retry-exhaustion environment: the first sleep
is attempt 0 for 1 s, and the result is the last wrapped `EOF`. -/
theorem claim_C3_witness :
    (0, 1000000000) ∈ (dialTarget envAllEOF podTargetSample 0).sleeps
    ∧ (0 < dialMaxAttempts - 1
        ∧ 1000000000 = effectiveBase 0 * dialBackoffScale ^ 0)
    ∧ (dialTarget envAllEOF podTargetSample 0).result =
        .failErr (some (.wrap "dial: " .EOF))
    ∧ some (GoErr.wrap "dial: " .EOF) = (dialTarget envAllEOF podTargetSample 0).errs.getLast?
    ∧ (dialTarget envAllEOF podTargetSample 0).sleeps =
        (List.range (iterCount podTargetSample.isService
            (dialTarget envAllEOF podTargetSample 0) - 1)).map
          (fun j => (j, effectiveBase 0 * dialBackoffScale ^ j))
    ∧ (dialTarget envAllEOF podTargetSample 0).sleeps =
        [(0, 1000000000), (1, 2000000000), (2, 4000000000),
         (3, 8000000000), (4, 16000000000)] :=
  ⟨by decide,
   (claim_C3 envAllEOF podTargetSample 0).2.2.1 (0, 1000000000) (by decide),
   by decide,
   (claim_C3 envAllEOF podTargetSample 0).2.2.2.2.1 (some (.wrap "dial: " .EOF)) (by decide),
   (claim_C3 envAllEOF podTargetSample 0).2.2.2.2.2.2,
   by decide⟩

theorem dialFrom_cancelErr (env : DialEnv) (svcMode : Bool) (pod : String) (base : Nat) :
    ∀ (fuel attempt : Nat) (lastErr : Option GoErr) (e : GoErr),
      (dialFrom env svcMode pod base fuel attempt lastErr).result = .cancelErr e →
      e = dialRetryCancelledErr := by
  intro fuel
  induction fuel with
  | zero =>
    intro attempt lastErr e h
    simp [dialFrom] at h
  | succ fuel ih =>
    intro attempt lastErr e h
    rcases hri : runIter env svcMode pod attempt with ⟨rc, dc, res⟩
    cases res with
    | conn p c =>
      rw [dialFrom, hri] at h
      simp at h
    | fail e2 =>
      cases hret : isRetriableError e2 with
      | false =>
        rw [dialFrom, hri] at h
        simp [hret] at h
      | true =>
        cases hwb : waitBackoffModel env base attempt with
        | error u =>
          cases u
          rw [dialFrom, hri] at h
          simp [hret, hwb] at h
          exact h.symm
        | ok slept =>
          rw [dialFrom, hri] at h
          simp [hret, hwb] at h
          exact ih (attempt + 1) (some e2) e h

theorem dialFrom_cancelAll (env : DialEnv) (svcMode : Bool) (pod : String) (base : Nat)
    (hall : ∀ j, env.cancelSleep j = true) :
    ∀ (fuel attempt : Nat) (lastErr : Option GoErr),
      attempt + fuel ≤ dialMaxAttempts →
      (dialFrom env svcMode pod base fuel attempt lastErr).resolveCalls ≤ 1
      ∧ (dialFrom env svcMode pod base fuel attempt lastErr).dialCalls ≤ 1 := by
  intro fuel
  induction fuel with
  | zero =>
    intro attempt lastErr hle
    simp [dialFrom]
  | succ fuel ih =>
    intro attempt lastErr hle
    obtain ⟨hrc1, hdc1⟩ := runIter_counts env svcMode pod attempt
    rcases hri : runIter env svcMode pod attempt with ⟨rc, dc, res⟩
    rw [hri] at hrc1 hdc1
    simp only at hrc1 hdc1
    cases res with
    | conn p c =>
      have htr : dialFrom env svcMode pod base (fuel + 1) attempt lastErr =
          { resolveCalls := rc, dialCalls := dc, sleeps := [], errs := [],
            result := .conn p c } := by
        rw [dialFrom, hri]
      rw [htr]
      exact ⟨hrc1, hdc1⟩
    | fail e =>
      cases hret : isRetriableError e with
      | false =>
        have htr : dialFrom env svcMode pod base (fuel + 1) attempt lastErr =
            { resolveCalls := rc, dialCalls := dc, sleeps := [], errs := [e],
              result := .failErr (some e) } := by
          rw [dialFrom, hri]
          simp [hret]
        rw [htr]
        exact ⟨hrc1, hdc1⟩
      | true =>
        cases hwb : waitBackoffModel env base attempt with
        | error u =>
          cases u
          have htr : dialFrom env svcMode pod base (fuel + 1) attempt lastErr =
              { resolveCalls := rc, dialCalls := dc, sleeps := [], errs := [e],
                result := .cancelErr dialRetryCancelledErr } := by
            rw [dialFrom, hri]
            simp [hret, hwb]
          rw [htr]
          exact ⟨hrc1, hdc1⟩
        | ok slept =>
          have hatt : attempt = dialMaxAttempts - 1 := by
            by_contra h5
            unfold waitBackoffModel at hwb
            rw [if_neg h5] at hwb
            simp [hall attempt] at hwb
          have hfuel : fuel = 0 := by omega
          subst hfuel
          obtain ⟨i1, i2, _, _, _⟩ :=
            dialFrom_invariant env svcMode pod base (0 + 1) attempt lastErr
          exact ⟨i1, i2⟩

/-- Counterexample to claim C6 as stated: the first dial fails with a wrapped
`EPIPE`, the context is cancelled during the backoff, and the returned
cancellation error wraps `context.Canceled` — the original failure (and its
`EPIPE` cause) is nowhere in the returned error's unwrap chain. -/
theorem claim_C6_counterexample :
    (dialTarget envCancelled podTargetSample 1).result =
      .cancelErr (.wrap "dial retry cancelled: " .canceled)
    ∧ (dialTarget envCancelled podTargetSample 1).resolveCalls = 0
    ∧ (dialTarget envCancelled podTargetSample 1).dialCalls = 1
    ∧ errIs (.wrap "dial retry cancelled: " .canceled) (.wrap "dial: " .EPIPE) = false
    ∧ errIs (.wrap "dial retry cancelled: " .canceled) .EPIPE = false
    ∧ errIs (.wrap "dial retry cancelled: " .canceled) .canceled = true := by
  decide

/-- Claim C6 as amended: a cancellation observed during a backoff sleep makes
`dialTarget` fail immediately — once the context is cancelled, at most the
in-flight attempt's resolve and dial calls have happened and no further
attempt runs — and the returned error is
`fmt.Errorf("dial retry cancelled: %w", ctx.Err())`, wrapping the context's
cancellation error rather than the failure that triggered the backoff. -/
theorem claim_C6_amended (env : DialEnv) (t : Target) (base : Nat) :
    (∀ e, (dialTarget env t base).result = .cancelErr e → e = dialRetryCancelledErr)
    ∧ ((∀ j, env.cancelSleep j = true) →
        (dialTarget env t base).resolveCalls ≤ 1
        ∧ (dialTarget env t base).dialCalls ≤ 1) := by
  constructor
  · intro e h
    exact dialFrom_cancelErr env t.isService t.podName base dialMaxAttempts 0 none e h
  · intro hall
    exact dialFrom_cancelAll env t.isService t.podName base hall dialMaxAttempts 0 none
      (by omega)

/-- Witness for the amended claim C6 on the always-cancelled environment. -/
theorem claim_C6_witness :
    GoErr.wrap "dial retry cancelled: " .canceled = dialRetryCancelledErr
    ∧ (dialTarget envCancelled podTargetSample 1).resolveCalls ≤ 1
    ∧ (dialTarget envCancelled podTargetSample 1).dialCalls ≤ 1 :=
  ⟨(claim_C6_amended envCancelled podTargetSample 1).1
      (.wrap "dial retry cancelled: " .canceled) (by decide),
   ((claim_C6_amended envCancelled podTargetSample 1).2 (fun _ => rfl)).1,
   ((claim_C6_amended envCancelled podTargetSample 1).2 (fun _ => rfl)).2⟩

theorem dialFrom_service_window (env : DialEnv) (pod : String) (base : Nat) :
    ∀ (n fuel attempt : Nat) (lastErr : Option GoErr), n < fuel →
      (∀ k, attempt ≤ k → k ≤ attempt + n → ∃ s, env.resolve k = .ok s) →
      (∀ k, attempt ≤ k → k < attempt + n → ∀ s, env.resolve k = .ok s →
        ∃ e, env.dial k s = .error e ∧ isRetriableError e = true) →
      (∀ k, attempt ≤ k → k < attempt + n → env.cancelSleep k = false) →
      (∀ s, env.resolve (attempt + n) = .ok s → ∃ c, env.dial (attempt + n) s = .ok c) →
      (dialFrom env true pod base fuel attempt lastErr).resolveCalls = n + 1
      ∧ (dialFrom env true pod base fuel attempt lastErr).dialCalls = n + 1
      ∧ ∃ p c, (dialFrom env true pod base fuel attempt lastErr).result = .conn p c := by
  intro n
  induction n with
  | zero =>
    intro fuel attempt lastErr hnf hres hdial hcancel hfinal
    obtain ⟨f, rfl⟩ : ∃ f, fuel = f + 1 := ⟨fuel - 1, by omega⟩
    obtain ⟨s, hs⟩ := hres attempt (Nat.le_refl _) (by omega)
    obtain ⟨c, hc⟩ := hfinal s (by simpa using hs)
    have hc2 : env.dial attempt s = .ok c := hc
    have hri : runIter env true pod attempt = (1, 1, .conn s c) := by
      simp [runIter, hs, hc2]
    have htr : dialFrom env true pod base (f + 1) attempt lastErr =
        { resolveCalls := 1, dialCalls := 1, sleeps := [], errs := [],
          result := .conn s c } := by
      rw [dialFrom, hri]
    rw [htr]
    exact ⟨rfl, rfl, s, c, rfl⟩
  | succ n ihn =>
    intro fuel attempt lastErr hnf hres hdial hcancel hfinal
    obtain ⟨f, rfl⟩ : ∃ f, fuel = f + 1 := ⟨fuel - 1, by omega⟩
    obtain ⟨s, hs⟩ := hres attempt (Nat.le_refl _) (by omega)
    obtain ⟨e, he, heret⟩ := hdial attempt (Nat.le_refl _) (by omega) s hs
    have hri : runIter env true pod attempt = (1, 1, .fail e) := by
      simp [runIter, hs, he]
    have hwbe : ∃ slept, waitBackoffModel env base attempt = .ok slept := by
      unfold waitBackoffModel
      by_cases h5 : attempt = dialMaxAttempts - 1
      · exact ⟨[], by rw [if_pos h5]⟩
      · rw [if_neg h5]
        refine ⟨[(attempt, effectiveBase base * dialBackoffScale ^ attempt)], ?_⟩
        simp [hcancel attempt (Nat.le_refl _) (by omega)]
    obtain ⟨slept, hwb⟩ := hwbe
    have htr : dialFrom env true pod base (f + 1) attempt lastErr =
        { resolveCalls :=
            1 + (dialFrom env true pod base f (attempt + 1) (some e)).resolveCalls,
          dialCalls :=
            1 + (dialFrom env true pod base f (attempt + 1) (some e)).dialCalls,
          sleeps := slept ++ (dialFrom env true pod base f (attempt + 1) (some e)).sleeps,
          errs := e :: (dialFrom env true pod base f (attempt + 1) (some e)).errs,
          result := (dialFrom env true pod base f (attempt + 1) (some e)).result } := by
      rw [dialFrom, hri]
      simp [heret, hwb]
    have hceq : attempt + 1 + n = attempt + (n + 1) := by omega
    obtain ⟨ihr, ihd, ihc⟩ := ihn f (attempt + 1) (some e) (by omega)
      (fun k hk1 hk2 => hres k (by omega) (by omega))
      (fun k hk1 hk2 s2 hs2 => hdial k (by omega) (by omega) s2 hs2)
      (fun k hk1 hk2 => hcancel k (by omega) (by omega))
      (by
        intro s2 hs2
        rw [hceq] at hs2
        obtain ⟨c, hc⟩ := hfinal s2 hs2
        exact ⟨c, by rw [hceq]; exact hc⟩)
    rw [htr]
    refine ⟨?_, ?_, ?_⟩
    · show 1 + (dialFrom env true pod base f (attempt + 1) (some e)).resolveCalls = n + 1 + 1
      omega
    · show 1 + (dialFrom env true pod base f (attempt + 1) (some e)).dialCalls = n + 1 + 1
      omega
    · exact ihc

/-- Claim C8: for a service-mode target, every attempt that runs re-resolves
the service afresh, so after `n` retriable dial failures followed by a
success, the resolver has been called exactly `n + 1` times (and so has the
dialer), and the call returns the connection. -/
theorem claim_C8 (env : DialEnv) (t : Target) (base n : Nat)
    (hsvc : t.isService = true) (hn : n < dialMaxAttempts)
    (hres : ∀ k, k ≤ n → ∃ s, env.resolve k = .ok s)
    (hdial : ∀ k, k < n → ∀ s, env.resolve k = .ok s →
      ∃ e, env.dial k s = .error e ∧ isRetriableError e = true)
    (hcancel : ∀ k, k < n → env.cancelSleep k = false)
    (hfinal : ∀ s, env.resolve n = .ok s → ∃ c, env.dial n s = .ok c) :
    (dialTarget env t base).resolveCalls = n + 1
    ∧ (dialTarget env t base).dialCalls = n + 1
    ∧ ∃ p c, (dialTarget env t base).result = .conn p c := by
  unfold dialTarget
  rw [hsvc]
  have h0 : 0 + n = n := by omega
  exact dialFrom_service_window env t.podName base n dialMaxAttempts 0 none hn
    (fun k hk1 hk2 => hres k (by omega))
    (fun k hk1 hk2 s hs => hdial k (by omega) s hs)
    (fun k hk1 hk2 => hcancel k (by omega))
    (by
      intro s hs
      rw [h0] at hs
      obtain ⟨c, hc⟩ := hfinal s hs
      exact ⟨c, by rw [h0]; exact hc⟩)

/-- Witness for claim C8: the spec's S5 scenario — `ECONNRESET` on attempts
0 and 1, success on attempt 2 — resolves exactly 3 times and dials 3 times. -/
theorem claim_C8_witness :
    (dialTarget envTransient svcTargetSample 1).resolveCalls = 3
    ∧ (dialTarget envTransient svcTargetSample 1).dialCalls = 3
    ∧ ∃ p c, (dialTarget envTransient svcTargetSample 1).result = .conn p c :=
  claim_C8 envTransient svcTargetSample 1 2 rfl (by decide)
    (fun k hk => ⟨"pod-a", rfl⟩)
    (fun k hk s hs => ⟨.wrap "SPDY dial: " .ECONNRESET, by simp [envTransient, hk], by decide⟩)
    (fun k hk => rfl)
    (fun s hs => ⟨"conn", by simp [envTransient]⟩)

end Podproxy
